import Mathlib

/-!
Shallow embedding of the `sign-transaction` subcommand of this repository
(`src/utils/frame/frame-utilities-cli/src/sign_transaction.rs`).

The file models:
- the command structure `SignTransactionCmd` and its construction by the
  argument parser (the structopt attributes apply `decode_hex` to the
  `prior_block_hash` and `call` fields),
- `SignTransactionCmd::run` (nonce parse, binary decode of hash and call,
  keystore password retrieval, scheme dispatch),
- the `with_crypto_scheme!` dispatch over the closed scheme set,
- `print_ext` (key-pair derivation from the secret URI, extrinsic
  construction, hex printing),
- `create_extrinsic_for` (modelled from the spec; its body is not under
  `src/`).

Effects are made explicit: every operation returns its result together with
a trace of events (which collaborator was invoked, what was printed), and a
Rust panic is a distinguished outcome separate from returned error values.
-/

/-- Byte sequences, as in the source alias `type Bytes = Vec<u8>`; a byte is a
`Nat` (values used are below 256 wherever a concrete byte is produced). -/
abbrev Bytes := List Nat

/-- The sp_runtime `AccountId32` account identifier, modelled as its bytes. -/
abbrev AccountId32 := Bytes

/-- Error taxonomy of the command, following the spec (section 7): the single
`sc_cli::Error` type is split by provenance: nonce parsing, hex or binary
decoding, key derivation, keystore password retrieval, provider failure. -/
inductive Error where
  | parseError
  | decodeError
  | keyDerivationError
  | keystoreError
  | providerError
  deriving DecidableEq

/-- Outcome of running a Rust function that may return `Ok`, return `Err`, or
abort the process with a panic. A panic is not an error value: it never
reaches the caller as a `Result`. -/
inductive Outcome (α : Type) where
  | ok (a : α)
  | err (e : Error)
  | panicked
  deriving DecidableEq

/-- Observable events of the pipeline, in invocation order: each collaborator
call is recorded when it is made, and every line printed to standard output
is recorded with its content. -/
inductive Event where
  | parseNonce
  | decodeHash
  | decodeCall
  | readPassword
  | deriveKey
  | resolveExtras
  | sign
  | print (line : String)
  deriving DecidableEq

/-- Value of a hexadecimal digit character (both cases), `none` otherwise. -/
def hexVal (c : Char) : Option Nat :=
  if 48 ≤ c.toNat && c.toNat ≤ 57 then some (c.toNat - 48)
  else if 97 ≤ c.toNat && c.toNat ≤ 102 then some (c.toNat - 87)
  else if 65 ≤ c.toNat && c.toNat ≤ 70 then some (c.toNat - 55)
  else none

/-- Hex decoding of a character list two digits at a time; `none` on an odd
number of characters or on any non-hex character. -/
def decodeHexChars : List Char → Option Bytes
  | [] => some []
  | [_] => none
  | c1 :: c2 :: rest =>
    match hexVal c1, hexVal c2, decodeHexChars rest with
    | some hi, some lo, some tail => some ((hi * 16 + lo) :: tail)
    | _, _, _ => none

/-- Modelled from the spec: `sc_cli::decode_hex` is not under `src/`. Per the
spec (section 6 collaborator contract and section 8), it decodes a hex string
to bytes and an odd-length or non-hex input always yields `DecodeError`. -/
def decode_hex (s : String) : Except Error Bytes :=
  match decodeHexChars s.data with
  | some bs => Except.ok bs
  | none => Except.error Error.decodeError

/-- A malformed hex string in the sense of the spec: odd length, or some
character is not a hexadecimal digit. -/
def malformedHex (s : String) : Bool :=
  s.data.length % 2 == 1 || s.data.any (fun c => (hexVal c).isNone)

/-- Lowercase hexadecimal digit for a value below 16. -/
def hexDigitChar (n : Nat) : Char :=
  if n < 10 then Char.ofNat (48 + n) else Char.ofNat (87 + n)

/-- The two lowercase hex characters of one byte. -/
def hexEncodeByte (b : Nat) : List Char :=
  [hexDigitChar (b / 16 % 16), hexDigitChar (b % 16)]

/-- Rendering of `sp_core::hexdisplay::HexDisplay`: lowercase hex of a byte
sequence, used by `print_ext` for its output line. -/
def hexEncode (bs : Bytes) : String :=
  String.mk (bs.map hexEncodeByte).flatten

/-- True exactly on the characters that lowercase hex output may contain:
decimal digits and the letters a to f. -/
def isLowerHexChar (c : Char) : Bool :=
  (48 ≤ c.toNat && c.toNat ≤ 57) || (97 ≤ c.toNat && c.toNat ≤ 102)

/-- Decimal digit value of a character, `none` on a non-digit. -/
def digitVal (c : Char) : Option Nat :=
  if 48 ≤ c.toNat && c.toNat ≤ 57 then some (c.toNat - 48) else none

/-- Accumulating decimal parse; fails on the first non-digit. -/
def parseNatAux : List Char → Nat → Option Nat
  | [], acc => some acc
  | c :: cs, acc =>
    match digitVal c with
    | none => none
    | some d => parseNatAux cs (acc * 10 + d)

/-- Decimal parse of a string into `Nat`: nonempty and all digits. Used by a
concrete provider instance as its `Index` parse. -/
def parseNatStr (s : String) : Option Nat :=
  match s.data with
  | [] => none
  | c :: cs => parseNatAux (c :: cs) 0

/-- The closed set of supported cryptographic schemes of
`sc_cli::CryptoSchemeFlag`. -/
inductive CryptoScheme where
  | sr25519
  | ed25519
  | ecdsa
  deriving DecidableEq

/-- One concrete key-pair type (an `sp_core::Pair` implementation) together
with the operations the pipeline uses on it. `fromSuri` models
`sc_cli::pair_from_suri`, which is not under `src/`: at its call site
(`print_ext`, line 121) its result is bound directly as the signer with no
error handling, so the Rust function returns the pair itself and a derivation
failure cannot surface as an `Error` value there; `none` therefore models the
helper aborting with a panic. -/
structure PairScheme where
  Pair : Type
  Public : Type
  fromSuri : String → Option String → Option Pair
  publicOf : Pair → Public
  toAccountId32 : Public → AccountId32
  sign : Pair → Bytes → Bytes

/-- The signed extrinsic: caller address, signature (as the bytes of its
`MultiSignature` form), call, and signed-extension data. -/
structure Extrinsic (Address Call Extra : Type) where
  address : Address
  signature : Bytes
  call : Call
  extra : Extra

/-- A chain provider (the `SignedExtensionProvider + pallet_indices::Trait`
bound of the source): the associated types Index, Hash, Call, Extra,
AccountId, Address, with nonce parsing, binary-codec decoding into `Hash` and
`Call`, the `AccountId32` conversion and the AccountId-to-Address mapping
required by the bounds, signed-extension resolution, and the binary codec for
payloads and extrinsics (a black-box serialize and deserialize contract). -/
structure Provider where
  Index : Type
  Hash : Type
  Call : Type
  Extra : Type
  AccountId : Type
  Address : Type
  parseIndex : String → Option Index
  decodeHash : Bytes → Option Hash
  decodeCall : Bytes → Option Call
  fromAccountId32 : AccountId32 → AccountId
  intoAddress : AccountId → Address
  extrasFor : Index → Hash → Option Extra
  encodePayload : Call → Extra → Bytes
  encodeExtrinsic : Extrinsic Address Call Extra → Bytes
  decodeExtrinsic : Bytes → Option (Extrinsic Address Call Extra)

/-- Modelled from the spec: `crate::utils::create_extrinsic_for` is invoked by
`print_ext` but its body is not under `src/`. Following the spec (section 4.2
steps 2 to 7): convert the public key to AccountId and then Address, resolve
the signed extensions for the nonce and prior block hash via the provider (a
failure there is the provider's fatal error), assemble the unsigned payload,
sign its canonical encoding, and assemble the signed extrinsic. It performs no
printing. -/
def create_extrinsic_for (S : PairScheme) (P : Provider)
    (call : P.Call) (nonce : P.Index) (signer : S.Pair) (hash : P.Hash) :
    Except Error (Extrinsic P.Address P.Call P.Extra) × List Event :=
  let address := P.intoAddress (P.fromAccountId32 (S.toAccountId32 (S.publicOf signer)))
  match P.extrasFor nonce hash with
  | none => (Except.error Error.providerError, [Event.resolveExtras])
  | some extra =>
    let payload := P.encodePayload call extra
    let sig := S.sign signer payload
    (Except.ok (Extrinsic.mk address sig call extra), [Event.resolveExtras, Event.sign])

/-- The source's `print_ext` (lines 105 to 125): derive the signer from the
secret URI (binding the pair directly; a rejected URI panics inside the
helper), build the signed extrinsic, then print one line: `0x` followed by
the lowercase hex of the extrinsic's binary encoding. -/
def print_ext (S : PairScheme) (P : Provider) (uri : String) (pass : Option String)
    (call : P.Call) (nonce : P.Index) (hash : P.Hash) : Outcome Unit × List Event :=
  match S.fromSuri uri pass with
  | none => (Outcome.panicked, [Event.deriveKey])
  | some signer =>
    match create_extrinsic_for S P call nonce signer hash with
    | (Except.error e, tr) => (Outcome.err e, Event.deriveKey :: tr)
    | (Except.ok ext, tr) =>
      (Outcome.ok (),
        Event.deriveKey :: (tr ++
          [Event.print (String.append ("0x") (hexEncode (P.encodeExtrinsic ext)))]))

/-- The `with_crypto_scheme!` dispatch of `sc_cli`: match once on the scheme
selector and invoke the generic callback instantiated at the concrete
key-pair type of that scheme (here, the entry of the scheme table). -/
def with_crypto_scheme {α : Type} (scheme : CryptoScheme)
    (table : CryptoScheme → PairScheme) (f : PairScheme → α) : α :=
  match scheme with
  | CryptoScheme.sr25519 => f (table CryptoScheme.sr25519)
  | CryptoScheme.ed25519 => f (table CryptoScheme.ed25519)
  | CryptoScheme.ecdsa => f (table CryptoScheme.ecdsa)

/-- The `sign-transaction` command value, as the source struct: secret URI,
the nonce string (a `GenericNumber`, modelled by its raw string), the already
hex-decoded `prior_block_hash` and `call` byte vectors, the keystore (modelled
by the result of its `read_password`: `none` is a retrieval failure), and the
chosen crypto scheme. -/
structure SignTransactionCmd where
  suri : String
  nonce : String
  prior_block_hash : Bytes
  call : Bytes
  keystore_password : Option (Option String)
  crypto_scheme : CryptoScheme
  deriving DecidableEq

/-- The source's `SignTransactionCmd::run` (lines 81 to 90), generic over the
provider: parse the nonce, binary-decode the prior block hash, binary-decode
the call, read the keystore password, then dispatch on the crypto scheme to
`print_ext`. Each step's failure returns immediately (the `?` operator). -/
def SignTransactionCmd.run (P : Provider) (table : CryptoScheme → PairScheme)
    (cmd : SignTransactionCmd) : Outcome Unit × List Event :=
  match P.parseIndex cmd.nonce with
  | none => (Outcome.err Error.parseError, [Event.parseNonce])
  | some nonce =>
    match P.decodeHash cmd.prior_block_hash with
    | none => (Outcome.err Error.decodeError, [Event.parseNonce, Event.decodeHash])
    | some hash =>
      match P.decodeCall cmd.call with
      | none =>
        (Outcome.err Error.decodeError,
          [Event.parseNonce, Event.decodeHash, Event.decodeCall])
      | some call =>
        match cmd.keystore_password with
        | none =>
          (Outcome.err Error.keystoreError,
            [Event.parseNonce, Event.decodeHash, Event.decodeCall, Event.readPassword])
        | some password =>
          let result := with_crypto_scheme cmd.crypto_scheme table
            (fun S => print_ext S P cmd.suri password call nonce hash)
          (result.1,
            [Event.parseNonce, Event.decodeHash, Event.decodeCall, Event.readPassword]
              ++ result.2)

/-- Modelled from the spec and the structopt attributes in `src/`: the
argument parser constructs `SignTransactionCmd` from raw strings, applying
`decode_hex` to the `prior_block_hash` and `call` arguments (the
`parse(try_from_str = decode_hex)` attributes, lines 51 to 56); a hex failure
aborts construction with that error. -/
def SignTransactionCmd.fromArgs (suri nonceStr hashStr callStr : String)
    (pw : Option (Option String)) (scheme : CryptoScheme) :
    Except Error SignTransactionCmd :=
  match decode_hex hashStr with
  | Except.error e => Except.error e
  | Except.ok h =>
    match decode_hex callStr with
    | Except.error e => Except.error e
    | Except.ok c => Except.ok (SignTransactionCmd.mk suri nonceStr h c pw scheme)

/-- The whole command pipeline from raw string inputs: construct the command
value via the argument parser, then run it; a construction failure is the
command's failure and performs nothing further. -/
def signTransactionCommand (P : Provider) (table : CryptoScheme → PairScheme)
    (suri nonceStr hashStr callStr : String) (pw : Option (Option String))
    (scheme : CryptoScheme) : Outcome Unit × List Event :=
  match SignTransactionCmd.fromArgs suri nonceStr hashStr callStr pw scheme with
  | Except.error e => (Outcome.err e, [])
  | Except.ok cmd => cmd.run P table

/-- Events that touch key material: keystore password retrieval, key-pair
derivation from the secret URI, and signing. -/
def touchesKeyMaterial : Event → Bool
  | Event.readPassword => true
  | Event.deriveKey => true
  | Event.sign => true
  | _ => false

/-- Events that use the secret: key derivation, signing, printing a result. -/
def usesSecret : Event → Bool
  | Event.deriveKey => true
  | Event.sign => true
  | Event.print _ => true
  | _ => false

/-- True on a print event. -/
def isPrintEvent : Event → Bool
  | Event.print _ => true
  | _ => false

/-- The lines printed in a trace, in order. -/
def printsOf (tr : List Event) : List String :=
  tr.filterMap (fun e => match e with | Event.print s => some s | _ => none)

/-- A concrete secret URI accepted by the test scheme. -/
def aliceSuri : String := "//Alice"

/-- A concrete secret URI the test scheme's derivation rejects. -/
def badSuri : String := "//Mallory"

/-- A concrete well-formed nonce string. -/
def nonce5 : String := "5"

/-- A concrete non-numeric nonce string. -/
def badNonceStr : String := "abc"

/-- A concrete well-formed hex string for the prior block hash. -/
def hashHexStr : String := "0102"

/-- A concrete well-formed hex string for the call. -/
def callHexStr : String := "0304"

/-- A concrete malformed hex string (odd length). -/
def oddHexStr : String := "abc"

/-- A concrete malformed hex string (non-hex character). -/
def nonHexStr : String := "0g"

/-- A concrete key-pair scheme instance for witnesses: pairs and public keys
are numbers, derivation accepts exactly `aliceSuri`, and signing prefixes the
payload with the pair. -/
@[reducible] def S0 : PairScheme where
  Pair := Nat
  Public := Nat
  fromSuri := fun s _p => if s = aliceSuri then some 7 else none
  publicOf := fun p => p + 100
  toAccountId32 := fun pub => [pub % 256]
  sign := fun p payload => p :: payload

/-- A concrete provider instance for witnesses: all associated types are
`Nat`, the nonce parses in decimal, a hash decodes from exactly two bytes, a
call from a nonempty byte list, and the extrinsic codec is a length-prefixed
concatenation that round-trips. -/
@[reducible] def P0 : Provider where
  Index := Nat
  Hash := Nat
  Call := Nat
  Extra := Nat
  AccountId := Nat
  Address := Nat
  parseIndex := parseNatStr
  decodeHash := fun bs =>
    match bs with
    | [a, b] => some (a * 256 + b)
    | _ => none
  decodeCall := fun bs =>
    match bs with
    | [] => none
    | c :: rest => some ((c :: rest).foldl (fun a x => a * 256 + x) 0)
  fromAccountId32 := fun bs => bs.foldl (fun a x => a * 256 + x) 0
  intoAddress := fun a => a
  extrasFor := fun n h => some (n * 1000 + h)
  encodePayload := fun c e => [c % 256, e % 256]
  encodeExtrinsic := fun ext =>
    ext.address :: ext.call :: ext.extra :: ext.signature.length :: ext.signature
  decodeExtrinsic := fun bs =>
    match bs with
    | a :: c :: x :: _n :: rest => some (Extrinsic.mk a rest c x)
    | _ => none

/-- The scheme table used by witnesses: every scheme maps to `S0`. -/
def table0 : CryptoScheme → PairScheme := fun _ => S0

/-- A concrete command value whose nonce string is not numeric. -/
def cmdBadNonce : SignTransactionCmd :=
  SignTransactionCmd.mk aliceSuri badNonceStr [1, 2] [3, 4] (some none)
    CryptoScheme.sr25519

/-- A concrete command value on which the whole pipeline succeeds. -/
def cmdGood : SignTransactionCmd :=
  SignTransactionCmd.mk aliceSuri nonce5 [1, 2] [3, 4] (some none)
    CryptoScheme.sr25519

/-- A concrete command value whose keystore password retrieval fails. -/
def cmdNoPassword : SignTransactionCmd :=
  SignTransactionCmd.mk aliceSuri nonce5 [1, 2] [3, 4] none CryptoScheme.ed25519

theorem with_crypto_scheme_eq {α : Type} (s : CryptoScheme)
    (table : CryptoScheme → PairScheme) (f : PairScheme → α) :
    with_crypto_scheme s table f = f (table s) := by
  cases s <;> rfl

theorem hexDigitChar_lower : ∀ n : Nat, n < 16 → isLowerHexChar (hexDigitChar n) = true := by
  decide

theorem hexEncodeByte_lower (b : Nat) : (hexEncodeByte b).all isLowerHexChar = true := by
  have h1 := hexDigitChar_lower (b / 16 % 16) (Nat.mod_lt _ (by decide))
  have h2 := hexDigitChar_lower (b % 16) (Nat.mod_lt _ (by decide))
  simp [hexEncodeByte, h1, h2]

theorem hexEncode_lower (bs : Bytes) : (hexEncode bs).data.all isLowerHexChar = true := by
  show ((bs.map hexEncodeByte).flatten).all isLowerHexChar = true
  induction bs with
  | nil => rfl
  | cons b rest ih =>
    simp only [List.map_cons, List.flatten_cons, List.all_append, ih,
      hexEncodeByte_lower b, Bool.and_self]

theorem decodeHexChars_eq_none : ∀ cs : List Char,
    cs.length % 2 = 1 ∨ cs.any (fun c => (hexVal c).isNone) = true →
    decodeHexChars cs = none
  | [], h => by simp at h
  | [_], _ => rfl
  | c1 :: c2 :: rest, h => by
    cases h1 : hexVal c1 with
    | none => simp [decodeHexChars, h1]
    | some hi =>
      cases h2 : hexVal c2 with
      | none => simp [decodeHexChars, h1, h2]
      | some lo =>
        have hr : rest.length % 2 = 1 ∨ rest.any (fun c => (hexVal c).isNone) = true := by
          rcases h with h | h
          · left
            simp only [List.length_cons] at h
            omega
          · right
            simpa [List.any_cons, h1, h2] using h
        have hrec := decodeHexChars_eq_none rest hr
        simp [decodeHexChars, h1, h2, hrec]

theorem malformed_decode_hex (s : String) (h : malformedHex s = true) :
    decode_hex s = Except.error Error.decodeError := by
  have hd : decodeHexChars s.data = none := by
    apply decodeHexChars_eq_none
    simp only [malformedHex, Bool.or_eq_true, beq_iff_eq] at h
    rcases h with h | h
    · left; exact h
    · right; exact h
  simp [decode_hex, hd]

theorem decode_hex_error_eq (s : String) (e : Error)
    (h : decode_hex s = Except.error e) : e = Error.decodeError := by
  revert h
  unfold decode_hex
  cases decodeHexChars s.data
  · intro h
    simp at h
    exact h.symm
  · intro h
    simp at h

/-- Claim C1: in `SignTransactionCmd::run`, all decoding of inputs (parsing
the nonce string into the Index type, binary-decoding the prior block hash,
binary-decoding the call) completes successfully before any key material is
touched: if any decode step fails, the run returns an error and neither
password retrieval, key-pair derivation from the secret URI, nor signing is
ever reached. -/
theorem run_decode_before_key_material (P : Provider)
    (table : CryptoScheme → PairScheme) (cmd : SignTransactionCmd)
    (h : P.parseIndex cmd.nonce = none ∨ P.decodeHash cmd.prior_block_hash = none ∨
      P.decodeCall cmd.call = none) :
    (∃ e, (cmd.run P table).1 = Outcome.err e) ∧
    ((cmd.run P table).2.any touchesKeyMaterial) = false := by
  cases hp : P.parseIndex cmd.nonce with
  | none =>
    refine ⟨⟨Error.parseError, ?_⟩, ?_⟩ <;>
      simp [SignTransactionCmd.run, hp, touchesKeyMaterial]
  | some nonce =>
    cases hh : P.decodeHash cmd.prior_block_hash with
    | none =>
      refine ⟨⟨Error.decodeError, ?_⟩, ?_⟩ <;>
        simp [SignTransactionCmd.run, hp, hh, touchesKeyMaterial]
    | some hash =>
      cases hc : P.decodeCall cmd.call with
      | none =>
        refine ⟨⟨Error.decodeError, ?_⟩, ?_⟩ <;>
          simp [SignTransactionCmd.run, hp, hh, hc, touchesKeyMaterial]
      | some call =>
        rcases h with h | h | h <;> simp_all

/-- Witness for C1 at a concrete command whose nonce string is not numeric. -/
theorem run_decode_before_key_material_witness :
    (∃ e, (cmdBadNonce.run P0 table0).1 = Outcome.err e) ∧
    ((cmdBadNonce.run P0 table0).2.any touchesKeyMaterial) = false :=
  run_decode_before_key_material P0 table0 cmdBadNonce (Or.inl (by decide))

/-- Claim C2 counterexample: a secret URI the derivation rejects does not make
`print_ext` fail with a `KeyDerivationError` value propagated to the caller:
the outcome is a panic inside the derivation helper, not an error value. -/
theorem print_ext_bad_suri_counterexample :
    S0.fromSuri badSuri none = none ∧
    (print_ext S0 P0 badSuri none (3 : Nat) (5 : Nat) (9 : Nat)).1 = Outcome.panicked ∧
    (print_ext S0 P0 badSuri none (3 : Nat) (5 : Nat) (9 : Nat)).1 ≠
      Outcome.err Error.keyDerivationError :=
  ⟨by decide, by decide, by decide⟩

/-- Claim C2 (amended): when the derivation algorithm rejects the secret URI,
`print_ext` aborts by panicking inside the derivation helper, whose result is
bound with no error handling at the call site; no error value reaches the
caller and nothing further is executed. -/
theorem print_ext_bad_suri_panics (S : PairScheme) (P : Provider) (uri : String)
    (pass : Option String) (call : P.Call) (nonce : P.Index) (hash : P.Hash)
    (h : S.fromSuri uri pass = none) :
    print_ext S P uri pass call nonce hash = (Outcome.panicked, [Event.deriveKey]) := by
  simp [print_ext, h]

/-- Witness for the amended C2 at a concrete rejected URI. -/
theorem print_ext_bad_suri_panics_witness :
    print_ext S0 P0 badSuri none (3 : Nat) (5 : Nat) (9 : Nat) =
      (Outcome.panicked, [Event.deriveKey]) :=
  print_ext_bad_suri_panics S0 P0 badSuri none 3 5 9 (by decide)

/-- Claim C6: a nonce string that fails to parse into the provider's Index
type makes the run yield `ParseError` at once: the result is exactly that
error and the trace is the single nonce-parse event, so no binary decoding of
the call or the hash is attempted and no signing occurs. -/
theorem run_bad_nonce_parse_error (P : Provider) (table : CryptoScheme → PairScheme)
    (cmd : SignTransactionCmd) (h : P.parseIndex cmd.nonce = none) :
    cmd.run P table = (Outcome.err Error.parseError, [Event.parseNonce]) := by
  simp [SignTransactionCmd.run, h]

/-- Witness for C6 at a concrete non-numeric nonce string. -/
theorem run_bad_nonce_parse_error_witness :
    cmdBadNonce.run P0 table0 = (Outcome.err Error.parseError, [Event.parseNonce]) :=
  run_bad_nonce_parse_error P0 table0 cmdBadNonce (by decide)

/-- Claim C7: scheme dispatch itself cannot fail: for every selector in the
closed supported set, `with_crypto_scheme` invokes the generic callback at
that scheme's entry of the key-pair table and returns exactly the callback's
result; no error originates at the dispatch layer. -/
theorem with_crypto_scheme_dispatch {α : Type} (s : CryptoScheme)
    (table : CryptoScheme → PairScheme) (f : PairScheme → α) :
    with_crypto_scheme s table f = f (table s) := by
  cases s <;> rfl

/-- Claim C10: if keystore password retrieval fails, the run returns an error
with no key derivation, signing, or printing in its trace: password retrieval
strictly precedes scheme dispatch, so the secret URI is never used; moreover
whenever the password step was reached, the keystore error is the run's
result. -/
theorem run_password_failure (P : Provider) (table : CryptoScheme → PairScheme)
    (cmd : SignTransactionCmd) (h : cmd.keystore_password = none) :
    ((cmd.run P table).2.any usesSecret) = false ∧
    (∃ e, (cmd.run P table).1 = Outcome.err e) ∧
    (Event.readPassword ∈ (cmd.run P table).2 →
      (cmd.run P table).1 = Outcome.err Error.keystoreError) := by
  cases hp : P.parseIndex cmd.nonce with
  | none =>
    refine ⟨?_, ⟨Error.parseError, ?_⟩, ?_⟩ <;>
      simp [SignTransactionCmd.run, hp, usesSecret]
  | some nonce =>
    cases hh : P.decodeHash cmd.prior_block_hash with
    | none =>
      refine ⟨?_, ⟨Error.decodeError, ?_⟩, ?_⟩ <;>
        simp [SignTransactionCmd.run, hp, hh, usesSecret]
    | some hash =>
      cases hc : P.decodeCall cmd.call with
      | none =>
        refine ⟨?_, ⟨Error.decodeError, ?_⟩, ?_⟩ <;>
          simp [SignTransactionCmd.run, hp, hh, hc, usesSecret]
      | some call =>
        refine ⟨?_, ⟨Error.keystoreError, ?_⟩, ?_⟩ <;>
          simp [SignTransactionCmd.run, hp, hh, hc, h, usesSecret]

/-- Witness for C10 at a concrete command whose keystore has no password. -/
theorem run_password_failure_witness :
    ((cmdNoPassword.run P0 table0).2.any usesSecret) = false ∧
    (∃ e, (cmdNoPassword.run P0 table0).1 = Outcome.err e) ∧
    (Event.readPassword ∈ (cmdNoPassword.run P0 table0).2 →
      (cmdNoPassword.run P0 table0).1 = Outcome.err Error.keystoreError) :=
  run_password_failure P0 table0 cmdNoPassword rfl

/-- Claim C3 counterexample: the function the scheme dispatcher invokes is
`print_ext`, and on a concrete successful input it prints to standard output
(its trace contains a print event) while its success value is the unit value,
not the encoded bytes. -/
theorem print_ext_performs_io_counterexample :
    ((print_ext S0 P0 aliceSuri none (3 : Nat) (5 : Nat) (9 : Nat)).2.any isPrintEvent)
      = true ∧
    (print_ext S0 P0 aliceSuri none (3 : Nat) (5 : Nat) (9 : Nat)).1 = Outcome.ok () :=
  ⟨by decide, by decide⟩

/-- Claim C3 (amended): the function invoked by the scheme dispatcher
(`print_ext`) returns unit and prints the result; it is the inner extrinsic
construction (`create_extrinsic_for`) that performs no printing, and on
success `print_ext` emits exactly one line. -/
theorem print_ext_io_split (S : PairScheme) (P : Provider) (uri : String)
    (pass : Option String) (call : P.Call) (nonce : P.Index) (signer : S.Pair)
    (hash : P.Hash)
    (h : (print_ext S P uri pass call nonce hash).1 = Outcome.ok ()) :
    ((create_extrinsic_for S P call nonce signer hash).2.any isPrintEvent) = false ∧
    (∃ s, printsOf (print_ext S P uri pass call nonce hash).2 = [s]) := by
  constructor
  · cases hx : P.extrasFor nonce hash <;>
      simp [create_extrinsic_for, hx, isPrintEvent]
  · cases hs : S.fromSuri uri pass with
    | none => simp [print_ext, hs] at h
    | some signer2 =>
      cases hx : P.extrasFor nonce hash with
      | none => simp [print_ext, hs, create_extrinsic_for, hx] at h
      | some extra =>
        simp [print_ext, hs, create_extrinsic_for, hx, printsOf]

/-- Witness for the amended C3: at a concrete successful input, the dispatched
function emits exactly one printed line and the construction step prints
nothing. -/
theorem print_ext_io_split_witness :
    ((create_extrinsic_for S0 P0 (3 : Nat) (5 : Nat) (7 : Nat) (9 : Nat)).2.any
      isPrintEvent) = false ∧
    (∃ s, printsOf (print_ext S0 P0 aliceSuri none (3 : Nat) (5 : Nat) (9 : Nat)).2
      = [s]) :=
  print_ext_io_split S0 P0 aliceSuri none 3 5 7 9 (by decide)

/-- Claim C4: on success, the command's sole output is a single line of text:
the prefix `0x` followed by the lowercase hexadecimal rendering of the binary
encoding of the signed extrinsic. -/
theorem run_success_sole_output (P : Provider) (table : CryptoScheme → PairScheme)
    (cmd : SignTransactionCmd) (h : (cmd.run P table).1 = Outcome.ok ()) :
    ∃ ext : Extrinsic P.Address P.Call P.Extra,
      printsOf (cmd.run P table).2 =
        [String.append ("0x") (hexEncode (P.encodeExtrinsic ext))] ∧
      (hexEncode (P.encodeExtrinsic ext)).data.all isLowerHexChar = true := by
  cases hp : P.parseIndex cmd.nonce with
  | none => simp [SignTransactionCmd.run, hp] at h
  | some nonce =>
    cases hh : P.decodeHash cmd.prior_block_hash with
    | none => simp [SignTransactionCmd.run, hp, hh] at h
    | some hash =>
      cases hc : P.decodeCall cmd.call with
      | none => simp [SignTransactionCmd.run, hp, hh, hc] at h
      | some call =>
        cases hpw : cmd.keystore_password with
        | none => simp [SignTransactionCmd.run, hp, hh, hc, hpw] at h
        | some password =>
          cases hs : (table cmd.crypto_scheme).fromSuri cmd.suri password with
          | none =>
            simp [SignTransactionCmd.run, hp, hh, hc, hpw, with_crypto_scheme_eq,
              print_ext, hs] at h
          | some signer =>
            cases hx : P.extrasFor nonce hash with
            | none =>
              simp [SignTransactionCmd.run, hp, hh, hc, hpw, with_crypto_scheme_eq,
                print_ext, hs, create_extrinsic_for, hx] at h
            | some extra =>
              refine ⟨Extrinsic.mk
                (P.intoAddress (P.fromAccountId32 ((table cmd.crypto_scheme).toAccountId32
                  ((table cmd.crypto_scheme).publicOf signer))))
                ((table cmd.crypto_scheme).sign signer (P.encodePayload call extra))
                call extra, ?_, ?_⟩
              · simp [SignTransactionCmd.run, hp, hh, hc, hpw, with_crypto_scheme_eq,
                  print_ext, hs, create_extrinsic_for, hx, printsOf]
              · exact hexEncode_lower _

/-- Witness for C4 at a concrete successful command run. -/
theorem run_success_sole_output_witness :
    ∃ ext : Extrinsic P0.Address P0.Call P0.Extra,
      printsOf (cmdGood.run P0 table0).2 =
        [String.append ("0x") (hexEncode (P0.encodeExtrinsic ext))] ∧
      (hexEncode (P0.encodeExtrinsic ext)).data.all isLowerHexChar = true :=
  run_success_sole_output P0 table0 cmdGood (by decide)

/-- Claim C5: a malformed hex string (odd length or a non-hex character)
supplied for the call or the prior block hash makes the command yield
`DecodeError` with an empty trace: the argument parser fails before the run,
so the key-derivation function is never invoked. -/
theorem command_malformed_hex_decode_error (P : Provider)
    (table : CryptoScheme → PairScheme) (suri nonceStr hashStr callStr : String)
    (pw : Option (Option String)) (scheme : CryptoScheme)
    (h : malformedHex hashStr = true ∨ malformedHex callStr = true) :
    signTransactionCommand P table suri nonceStr hashStr callStr pw scheme =
      (Outcome.err Error.decodeError, []) ∧
    Event.deriveKey ∉
      (signTransactionCommand P table suri nonceStr hashStr callStr pw scheme).2 := by
  have hmain : signTransactionCommand P table suri nonceStr hashStr callStr pw scheme =
      (Outcome.err Error.decodeError, []) := by
    cases hdh : decode_hex hashStr with
    | error e =>
      have he : e = Error.decodeError := decode_hex_error_eq hashStr e hdh
      subst he
      simp [signTransactionCommand, SignTransactionCmd.fromArgs, hdh]
    | ok hbytes =>
      rcases h with h | h
      · rw [malformed_decode_hex hashStr h] at hdh
        exact Except.noConfusion hdh
      · have hdc := malformed_decode_hex callStr h
        simp [signTransactionCommand, SignTransactionCmd.fromArgs, hdh, hdc]
  refine ⟨hmain, ?_⟩
  rw [hmain]
  simp

/-- Witness for C5 at a concrete odd-length hex string for the hash. -/
theorem command_malformed_hex_decode_error_witness :
    signTransactionCommand P0 table0 aliceSuri nonce5 oddHexStr callHexStr
        (some none) CryptoScheme.sr25519 =
      (Outcome.err Error.decodeError, []) ∧
    Event.deriveKey ∉
      (signTransactionCommand P0 table0 aliceSuri nonce5 oddHexStr callHexStr
        (some none) CryptoScheme.sr25519).2 :=
  command_malformed_hex_decode_error P0 table0 aliceSuri nonce5 oddHexStr callHexStr
    (some none) CryptoScheme.sr25519 (Or.inl (by decide))

/-- Claim C8: for a valid input triple (the provider resolves the signed
extensions for the nonce and hash) and a valid secret URI (the derivation
accepts it), building and signing succeeds — `create_extrinsic_for` returns a
signed extrinsic and `print_ext` succeeds — and, under the binary codec's
round-trip contract, the encoded signed extrinsic decodes back to the same
address, call, and signed extensions that were used to construct it. -/
theorem build_and_sign_roundtrip (S : PairScheme) (P : Provider) (uri : String)
    (pass : Option String) (call : P.Call) (nonce : P.Index) (hash : P.Hash)
    (signer : S.Pair) (extra : P.Extra)
    (hsuri : S.fromSuri uri pass = some signer)
    (hextra : P.extrasFor nonce hash = some extra)
    (hcodec : ∀ e : Extrinsic P.Address P.Call P.Extra,
      P.decodeExtrinsic (P.encodeExtrinsic e) = some e) :
    ∃ ext : Extrinsic P.Address P.Call P.Extra,
      (create_extrinsic_for S P call nonce signer hash).1 = Except.ok ext ∧
      (print_ext S P uri pass call nonce hash).1 = Outcome.ok () ∧
      P.decodeExtrinsic (P.encodeExtrinsic ext) = some ext ∧
      ext.address =
        P.intoAddress (P.fromAccountId32 (S.toAccountId32 (S.publicOf signer))) ∧
      ext.call = call ∧ ext.extra = extra := by
  refine ⟨Extrinsic.mk
    (P.intoAddress (P.fromAccountId32 (S.toAccountId32 (S.publicOf signer))))
    (S.sign signer (P.encodePayload call extra)) call extra,
    ?_, ?_, hcodec _, rfl, rfl, rfl⟩
  · simp [create_extrinsic_for, hextra]
  · simp [print_ext, hsuri, create_extrinsic_for, hextra]

/-- Witness for C8 at a fully concrete instantiation whose codec round-trips
definitionally. -/
theorem build_and_sign_roundtrip_witness :
    ∃ ext : Extrinsic P0.Address P0.Call P0.Extra,
      (create_extrinsic_for S0 P0 (3 : Nat) (5 : Nat) (7 : Nat) (9 : Nat)).1 =
        Except.ok ext ∧
      (print_ext S0 P0 aliceSuri none (3 : Nat) (5 : Nat) (9 : Nat)).1 =
        Outcome.ok () ∧
      P0.decodeExtrinsic (P0.encodeExtrinsic ext) = some ext ∧
      ext.address =
        P0.intoAddress (P0.fromAccountId32 (S0.toAccountId32 (S0.publicOf 7))) ∧
      ext.call = 3 ∧ ext.extra = 5 * 1000 + 9 :=
  build_and_sign_roundtrip S0 P0 aliceSuri none 3 5 9 7 (5 * 1000 + 9)
    (by decide) (by decide) (fun e => rfl)

/-- Claim C9: hex decoding of the call and prior-block-hash arguments happens
when the command value is constructed by the argument parser: a successfully
constructed command holds exactly the hex-decoded byte vectors, and any
`DecodeError` the run then returns arises from the binary-codec decode of
those bytes into the Hash or Call type, never from hex decoding. -/
theorem fromArgs_hex_decoded (P : Provider) (table : CryptoScheme → PairScheme)
    (suri nonceStr hashStr callStr : String) (pw : Option (Option String))
    (scheme : CryptoScheme) (cmd : SignTransactionCmd)
    (h : SignTransactionCmd.fromArgs suri nonceStr hashStr callStr pw scheme =
      Except.ok cmd) :
    decode_hex hashStr = Except.ok cmd.prior_block_hash ∧
    decode_hex callStr = Except.ok cmd.call ∧
    ((cmd.run P table).1 = Outcome.err Error.decodeError →
      P.decodeHash cmd.prior_block_hash = none ∨ P.decodeCall cmd.call = none) := by
  have hfields : decode_hex hashStr = Except.ok cmd.prior_block_hash ∧
      decode_hex callStr = Except.ok cmd.call := by
    cases hdh : decode_hex hashStr with
    | error e => simp [SignTransactionCmd.fromArgs, hdh] at h
    | ok hb =>
      cases hdc : decode_hex callStr with
      | error e => simp [SignTransactionCmd.fromArgs, hdh, hdc] at h
      | ok cb =>
        simp only [SignTransactionCmd.fromArgs, hdh, hdc, Except.ok.injEq] at h
        subst h
        exact ⟨rfl, rfl⟩
  refine ⟨hfields.1, hfields.2, ?_⟩
  intro hrun
  cases hp : P.parseIndex cmd.nonce with
  | none => simp [SignTransactionCmd.run, hp] at hrun
  | some nonce =>
    cases hh : P.decodeHash cmd.prior_block_hash with
    | none => exact Or.inl rfl
    | some hsh =>
      cases hc : P.decodeCall cmd.call with
      | none => exact Or.inr rfl
      | some call =>
        exfalso
        cases hpw : cmd.keystore_password with
        | none => simp [SignTransactionCmd.run, hp, hh, hc, hpw] at hrun
        | some password =>
          cases hs : (table cmd.crypto_scheme).fromSuri cmd.suri password with
          | none =>
            simp [SignTransactionCmd.run, hp, hh, hc, hpw, with_crypto_scheme_eq,
              print_ext, hs] at hrun
          | some signer =>
            cases hx : P.extrasFor nonce hsh with
            | none =>
              simp [SignTransactionCmd.run, hp, hh, hc, hpw, with_crypto_scheme_eq,
                print_ext, hs, create_extrinsic_for, hx] at hrun
            | some extra =>
              simp [SignTransactionCmd.run, hp, hh, hc, hpw, with_crypto_scheme_eq,
                print_ext, hs, create_extrinsic_for, hx] at hrun

/-- Witness for C9 at concrete raw arguments that construct a command. -/
theorem fromArgs_hex_decoded_witness :
    decode_hex hashHexStr = Except.ok cmdGood.prior_block_hash ∧
    decode_hex callHexStr = Except.ok cmdGood.call ∧
    ((cmdGood.run P0 table0).1 = Outcome.err Error.decodeError →
      P0.decodeHash cmdGood.prior_block_hash = none ∨
      P0.decodeCall cmdGood.call = none) :=
  fromArgs_hex_decoded P0 table0 aliceSuri nonce5 hashHexStr callHexStr (some none)
    CryptoScheme.sr25519 cmdGood (by rfl)
